import Mathlib

set_option autoImplicit false

/-!
Verification development for the `ExtractTranscripts` spider of the
MT-Dataset-Toolkit repository (`src/scraper/TEDScraper/spiders/ExtractTranscripts.py`).

The spider is a multi-facet gather/reconciliation coordinator: for each talk
(item) it fetches one transcript per required language (facet), retries
mismatching fetches with a per-(talk, language) retry budget, and emits one
output record per talk once all required languages have been collected.  A
JSON-lines OUTPUT file acts as a resumable ledger of completed talk ids.

This file gives a shallow embedding of that coordinator:
  * `parse_talk`      — the response callback at lines 99-148 of the source;
  * `check_languages` — the availability gate at lines 80-97;
  * `start_requests_step` — one lazy pull of the `start_requests` generator
                        (lines 71-78);
  * `initState`       — the ledger replay and dataframe drop in `__init__`
                        (lines 28-69);
  * `run`             — a whole crawl, driven by an adversarial script of
                        scheduler events (which pending request's response
                        arrives next, and with what decoded content).

Python dicts holding the transcripts are embedded as association lists with
dict-update semantics (`dictInsert`); python sets become `Finset String`.
A decode failure (the uncaught `json.loads`/key-lookup exceptions at
lines 119-121 and 124-125) is embedded as `Except.error ()`: the callback
dies without mutating any state.
-/

/-- Python dict membership of a key: `key in d`. -/
def dictMem (k : String) (m : List (String × String)) : Prop :=
  k ∈ m.map Prod.fst

instance (k : String) (m : List (String × String)) : Decidable (dictMem k m) := by
  unfold dictMem; infer_instance

/-- Python dict assignment `d[k] = v`: replace the value if the key is
present, otherwise append the new binding (insertion order preserved). -/
def dictInsert (k v : String) (m : List (String × String)) : List (String × String) :=
  if dictMem k m then
    m.map (fun p => if p.1 = k then (k, v) else p)
  else
    m ++ [(k, v)]

/-- Python dict lookup `d[k]` (first binding wins; in reachable states keys
are unique). -/
def dictLookup (k : String) : List (String × String) → Option String
  | [] => none
  | (k', v) :: rest => if k' = k then some v else dictLookup k rest

/-- The key set of a python dict. -/
def dictKeys (m : List (String × String)) : Finset String :=
  (m.map Prod.fst).toFinset

/-- The per-talk accumulator `talk = {'data': {}, 'languages': set()}`
created in `check_languages` and threaded through `parse_talk` via request
meta: collected transcripts plus the set of languages already processed. -/
structure Talk where
  data : List (String × String)
  langs : Finset String
deriving DecidableEq

/-- Spider configuration: the `LANGUAGES.split(',')` list, `self.max_retries`
and `self.max_talks`. -/
structure Config where
  languagesList : List String
  maxRetries : Nat
  maxTalks : Nat

/-- `self.languages = set(LANGUAGES.split(','))` (line 31). -/
def Config.languages (cfg : Config) : Finset String :=
  cfg.languagesList.toFinset

/-- An output record yielded at line 138: `TALK-ID`, `TALK-NAME`, optional
`GENDER`, and the `TRANSCRIPTS` mapping. -/
structure Item where
  talkId : String
  talkName : String
  gender : Option String
  transcripts : List (String × String)
deriving DecidableEq

/-- An outstanding scrapy request: either an availability-gate request whose
callback is `check_languages`, or a transcript fetch whose callback is
`parse_talk` (carrying the talk id, display name, expected language and the
remaining-retry counter from its meta). -/
inductive Req
  | gate (talkId : String)
  | fetch (talkId talkName language : String) (retries : Nat)
deriving DecidableEq

/-- The talk identifier a request belongs to. -/
def Req.talkOf : Req → String
  | .gate i => i
  | .fetch i _ _ _ => i

/-- Whether a request is a transcript fetch for the given (talk, language)
pair. -/
def Req.isFetchFor (id lang : String) : Req → Bool
  | .fetch i _ l _ => i == id && l == lang
  | _ => false

/-- Decoded content of a transcript-page response, as consumed by
`parse_talk`:
  * `noData`: the `__NEXT_DATA__` script is absent or undecodable, so the
    `json.loads` chain at lines 119-121 raises;
  * `data language transcript`: the page decodes to the given internal
    language code; `transcript = none` means the `ld+json` script at lines
    124-125 is absent or undecodable (raising, if that code path is reached). -/
inductive RawResponse
  | noData
  | data (language : String) (transcript : Option String)
deriving DecidableEq

/-- Raw content of any response, as decoded by whichever callback receives
it: a gate response yields the page's URL tail (the display name at line 85)
and its available language codes (lines 86-87); a fetch response yields a
`RawResponse`. -/
inductive Raw
  | avail (urlTail : String) (availableLanguages : List String)
  | page (resp : RawResponse)
deriving DecidableEq

/-- One scheduler event of a crawl: either pull the next candidate from the
`start_requests` generator, or deliver a response (with adversarially chosen
decoded content) to the pending request at the given index. -/
inductive Event
  | pull
  | respond (idx : Nat) (raw : Raw)

/-- The state visible to one `parse_talk` invocation: the global
`finished_talks` dict (modelled as the set of its keys) and this talk's
shared accumulator. -/
structure PView where
  finished : Finset String
  talk : Talk
deriving DecidableEq

/-- The effect of one `parse_talk` invocation: updated `finished_talks`,
updated accumulator, the yielded output record if any, and the retry counter
of the reissued fetch if any (the reissued request is otherwise identical). -/
structure POut where
  finished : Finset String
  talk : Talk
  emitted : Option Item
  reissue : Option Nat
deriving DecidableEq

/-- `parse_talk` (lines 99-148): process one transcript-page response.
`Except.error ()` is an uncaught decode exception escaping the callback.
Mirrors the source line by line:
  * line 111: `if not retries: return`;
  * line 115: `if len(finished_talks) >= self.max_talks: return`;
  * lines 119-121: decode `__NEXT_DATA__` (raises on failure);
  * line 123: `if language in self.languages:`;
  * lines 124-125: decode the `ld+json` transcript (raises on failure);
  * lines 126-127: `talk['data'][language] = transcript`,
    `talk['languages'].add(language)`;
  * lines 129-138: finalize and yield when all languages are collected and
    the talk is not already finished;
  * lines 140-142: otherwise reissue the fetch with `retries-1` if the
    expected language is still missing;
  * lines 145-148: language mismatch — reissue with `retries-1`. -/
def parse_talk (cfg : Config) (gender : Option String)
    (talkId talkName expectedLanguage : String) (retries : Nat)
    (st : PView) (resp : RawResponse) : Except Unit POut :=
  if retries = 0 then
    Except.ok ⟨st.finished, st.talk, none, none⟩
  else if cfg.maxTalks ≤ st.finished.card then
    Except.ok ⟨st.finished, st.talk, none, none⟩
  else
    match resp with
    | RawResponse.noData => Except.error ()
    | RawResponse.data language transcript =>
      if language ∈ cfg.languages then
        match transcript with
        | none => Except.error ()
        | some t =>
          let talk' : Talk := ⟨dictInsert language t st.talk.data,
                               insert language st.talk.langs⟩
          if talk'.langs.card = cfg.languages.card ∧ talkId ∉ st.finished then
            Except.ok ⟨insert talkId st.finished, talk',
              some ⟨talkId, talkName, gender, talk'.data⟩, none⟩
          else if expectedLanguage ∉ talk'.langs then
            Except.ok ⟨st.finished, talk', none, some (retries - 1)⟩
          else
            Except.ok ⟨st.finished, talk', none, none⟩
      else
        Except.ok ⟨st.finished, st.talk, none, some (retries - 1)⟩

/-- The effect of one `check_languages` invocation (lines 80-97): updated
`finished_talks`, the freshly created accumulator (when the gate passes) and
the transcript fetches issued (one per required language, each with the full
retry budget). -/
structure GateOut where
  finished : Finset String
  newTalk : Option Talk
  requests : List Req
deriving DecidableEq

/-- `check_languages` (lines 80-97): if the required languages are a subset
of the talk's available languages, create a fresh accumulator and issue one
transcript fetch per required language; otherwise mark the talk in
`finished_talks` (line 97) and issue nothing. -/
def check_languages (cfg : Config) (talkId talkName : String)
    (availableLanguages : List String) (finished : Finset String) : GateOut :=
  if cfg.languages ⊆ availableLanguages.toFinset then
    ⟨finished, some ⟨[], ∅⟩,
      cfg.languagesList.dedup.map (fun l => Req.fetch talkId talkName l cfg.maxRetries)⟩
  else
    ⟨insert talkId finished, none, []⟩

/-- Inputs fixed at spider construction: the catalog index (`self.df.index`
before the drop at line 69), the optional per-talk gender column, and the
talk ids replayed from the OUTPUT ledger file (lines 57-67). -/
structure InitData where
  dfIndex : List String
  genders : String → Option String
  ledger : List String

/-- Whole-crawl state. `accum` holds each admitted talk's shared accumulator
(the python `talk` dict passed by reference through request meta); `pending`
holds outstanding requests; `emitted` is the output stream in emission
order; `reqLog` records every request ever issued. -/
structure Sys where
  finished : Finset String
  accum : String → Talk
  remaining : List String
  pending : List Req
  emitted : List Item
  reqLog : List Req

/-- Spider construction (`__init__`, lines 28-69): seed `finished_talks`
from the ledger and drop already-finished talks from the dataframe. -/
def initState (init : InitData) : Sys :=
  { finished := init.ledger.toFinset
    accum := fun _ => ⟨[], ∅⟩
    remaining := init.dfIndex.filter (fun i => i ∉ init.ledger.toFinset)
    pending := []
    emitted := []
    reqLog := [] }

/-- One lazy pull of the `start_requests` generator (lines 75-78): take the
next dataframe index entry; admit it (issue its gate request) only if it is
not in `finished_talks` and the number of finished talks is still below
`max_talks`. -/
def start_requests_step (cfg : Config) (s : Sys) : Sys :=
  match s.remaining with
  | [] => s
  | talkId :: rest =>
    if talkId ∉ s.finished ∧ s.finished.card < cfg.maxTalks then
      { s with remaining := rest
               pending := s.pending ++ [Req.gate talkId]
               reqLog := s.reqLog ++ [Req.gate talkId] }
    else
      { s with remaining := rest }

/-- The fetch reissued by one `parse_talk` invocation (lines 142 and 148):
identical to the original request except for the decremented retry
counter. -/
def reissueList (talkId talkName lang : String) : Option Nat → List Req
  | some r => [Req.fetch talkId talkName lang r]
  | none => []

/-- Deliver a response to the pending request at index `idx` and run its
callback.  An event whose raw content does not match the request's callback
kind is ignored.  A decode exception (`Except.error`) consumes the request
but leaves all coordinator state unchanged (the callback raises before any
mutation). -/
def respondStep (cfg : Config) (init : InitData) (s : Sys) (idx : Nat) (raw : Raw) : Sys :=
  match s.pending.get? idx with
  | none => s
  | some req =>
    match req, raw with
    | Req.gate talkId, Raw.avail urlTail langs =>
      let g := check_languages cfg talkId urlTail langs s.finished
      { s with
        finished := g.finished
        accum := match g.newTalk with
          | some t => fun i => if i = talkId then t else s.accum i
          | none => s.accum
        pending := s.pending.eraseIdx idx ++ g.requests
        reqLog := s.reqLog ++ g.requests }
    | Req.fetch talkId talkName lang retries, Raw.page resp =>
      match parse_talk cfg (init.genders talkId) talkId talkName lang retries
              ⟨s.finished, s.accum talkId⟩ resp with
      | Except.error _ => { s with pending := s.pending.eraseIdx idx }
      | Except.ok out =>
        { s with
          finished := out.finished
          accum := fun i => if i = talkId then out.talk else s.accum i
          pending := s.pending.eraseIdx idx ++ reissueList talkId talkName lang out.reissue
          emitted := s.emitted ++ out.emitted.toList
          reqLog := s.reqLog ++ reissueList talkId talkName lang out.reissue }
    | _, _ => s

/-- One scheduler event. -/
def step (cfg : Config) (init : InitData) (s : Sys) : Event → Sys
  | Event.pull => start_requests_step cfg s
  | Event.respond idx raw => respondStep cfg init s idx raw

/-- A whole crawl: fold a script of scheduler events over the initial
state. -/
def run (cfg : Config) (init : InitData) (script : List Event) : Sys :=
  script.foldl (step cfg init) (initState init)

/-- Number of transcript fetches ever issued for a given (talk, language)
pair in a request log. -/
def countFetchFor (id lang : String) (log : List Req) : Nat :=
  (log.filter (Req.isFetchFor id lang)).length

/-! ## Concrete instances used in scenarios, witnesses and counterexamples -/

/-- An empty accumulator, as created on admission. -/
def emptyTalk : Talk := ⟨[], ∅⟩

/-- An accumulator that already holds an `"en"` transcript. -/
def talkOldEn : Talk := ⟨[("en", "old")], {"en"}⟩

/-- Required language `en`, retry budget 10, completion budget 1. -/
def cfgA : Config := ⟨["en"], 10, 1⟩

/-- Required language `en`, retry budget 10, completion budget 2. -/
def cfgA2 : Config := ⟨["en"], 10, 2⟩

/-- Required languages `en` and `fr`, retry budget 10, completion budget 5. -/
def cfgEnFr : Config := ⟨["en", "fr"], 10, 5⟩

/-- One-talk catalog, no gender column, empty ledger. -/
def initA : InitData := ⟨["A"], fun _ => none, []⟩

/-- One-talk catalog with a ledger already holding talk `Z`. -/
def initZ : InitData := ⟨["A"], fun _ => none, ["Z"]⟩

/-- Two-talk catalog, no gender column, empty ledger. -/
def initAB : InitData := ⟨["A", "B"], fun _ => none, []⟩

/-- A crawl that admits talk `A`, passes its gate and completes it. -/
def scriptA : List Event :=
  [Event.pull,
   Event.respond 0 (Raw.avail "A" ["en", "fr"]),
   Event.respond 0 (Raw.page (RawResponse.data "en" (some "hello")))]

/-- A crawl admitting `A` and `B`, completing `A` first; `B`'s perfectly
valid matching response arrives after the completion budget (1) is reached. -/
def scriptC3 : List Event :=
  [Event.pull, Event.pull,
   Event.respond 0 (Raw.avail "A" ["en"]),
   Event.respond 0 (Raw.avail "B" ["en"]),
   Event.respond 0 (Raw.page (RawResponse.data "en" (some "ta"))),
   Event.respond 0 (Raw.page (RawResponse.data "en" (some "tb")))]

/-- A crawl in which talk `A` fails the availability gate (no languages
offered) and talk `B` is then offered for admission. -/
def scriptC4 : List Event :=
  [Event.pull,
   Event.respond 0 (Raw.avail "A" []),
   Event.pull]

/-- Required language `en` with retry budget R₀ = 2 (`MAX_RETRIES=2`) and
completion budget `b`. -/
def cfg5 (b : Nat) : Config := ⟨["en"], 2, b⟩

/-- One-talk catalog for the retry-exhaustion scenario. -/
def init5 : InitData := ⟨["A"], fun _ => none, []⟩

/-- The retry-exhaustion scenario of claim C5: every gate response offers
the required language `en` (so the talk is admitted and its fetch issued),
and every fetch response decodes successfully but to a wrong language code
(never `en`). -/
def scenario5 : Event → Prop
  | Event.pull => True
  | Event.respond _ (Raw.avail _ langs) => "en" ∈ langs
  | Event.respond _ (Raw.page (RawResponse.data l _)) => l ≠ "en"
  | Event.respond _ (Raw.page RawResponse.noData) => False

instance (e : Event) : Decidable (scenario5 e) := by
  unfold scenario5
  cases e with
  | pull => exact inferInstanceAs (Decidable True)
  | respond idx raw =>
    cases raw with
    | avail u langs => exact inferInstanceAs (Decidable ("en" ∈ langs))
    | page r =>
      cases r with
      | noData => exact inferInstanceAs (Decidable False)
      | data l tr => exact inferInstanceAs (Decidable (l ≠ "en"))

/-- The six shapes a crawl state can take in the retry-exhaustion scenario
(`cfg5`, `init5`): initial; gate request pending; fetch pending with 2, 1 or
0 retries left (the display name `nm` comes from the gate response); and
fully drained after the third fetch's response was dropped at the
retry-exhaustion check.  In every shape nothing has been emitted and no talk
has finished. -/
def Phase5 (s : Sys) : Prop :=
  (s.finished = ∅ ∧ s.emitted = [] ∧ s.remaining = ["A"] ∧ s.pending = [] ∧
    s.reqLog = [])
  ∨ (s.finished = ∅ ∧ s.emitted = [] ∧ s.remaining = [] ∧
      s.pending = [Req.gate "A"] ∧ s.reqLog = [Req.gate "A"])
  ∨ (∃ nm, s.finished = ∅ ∧ s.emitted = [] ∧ s.remaining = [] ∧
      s.pending = [Req.fetch "A" nm "en" 2] ∧
      s.reqLog = [Req.gate "A", Req.fetch "A" nm "en" 2])
  ∨ (∃ nm, s.finished = ∅ ∧ s.emitted = [] ∧ s.remaining = [] ∧
      s.pending = [Req.fetch "A" nm "en" 1] ∧
      s.reqLog = [Req.gate "A", Req.fetch "A" nm "en" 2, Req.fetch "A" nm "en" 1])
  ∨ (∃ nm, s.finished = ∅ ∧ s.emitted = [] ∧ s.remaining = [] ∧
      s.pending = [Req.fetch "A" nm "en" 0] ∧
      s.reqLog = [Req.gate "A", Req.fetch "A" nm "en" 2, Req.fetch "A" nm "en" 1,
        Req.fetch "A" nm "en" 0])
  ∨ (∃ nm, s.finished = ∅ ∧ s.emitted = [] ∧ s.remaining = [] ∧
      s.pending = [] ∧
      s.reqLog = [Req.gate "A", Req.fetch "A" nm "en" 2, Req.fetch "A" nm "en" 1,
        Req.fetch "A" nm "en" 0])

/-- The canonical deterministic instance of the retry-exhaustion scenario:
the gate offers `en`, then all three fetch responses decode to the wrong
language `tr`. -/
def script5 : List Event :=
  [Event.pull,
   Event.respond 0 (Raw.avail "A" ["en"]),
   Event.respond 0 (Raw.page (RawResponse.data "tr" (some "x"))),
   Event.respond 0 (Raw.page (RawResponse.data "tr" (some "x"))),
   Event.respond 0 (Raw.page (RawResponse.data "tr" (some "x")))]

/-! ## Dictionary lemmas -/

/-- Inserting a binding adds its key to the key set. -/
theorem dictKeys_dictInsert (k v : String) (m : List (String × String)) :
    dictKeys (dictInsert k v m) = insert k (dictKeys m) := by
  unfold dictInsert
  split
  · rename_i hk
    unfold dictMem at hk
    have hmap : List.map Prod.fst (m.map fun p => if p.1 = k then (k, v) else p)
        = List.map Prod.fst m := by
      rw [List.map_map]
      apply List.map_congr_left
      intro p _
      by_cases hp : p.1 = k
      · simp [hp]
      · simp [hp]
    unfold dictKeys
    rw [hmap]
    exact ((Finset.insert_eq_self).mpr (List.mem_toFinset.mpr hk)).symm
  · unfold dictKeys
    rw [List.map_append, List.toFinset_append]
    simp [Finset.insert_eq, Finset.union_comm]

/-- Looking up the key just inserted returns the new value. -/
theorem dictLookup_dictInsert_self (k v : String) (m : List (String × String)) :
    dictLookup k (dictInsert k v m) = some v := by
  unfold dictInsert
  split
  · rename_i hk
    unfold dictMem at hk
    induction m with
    | nil => simp at hk
    | cons p rest ih =>
      by_cases hp : p.1 = k
      · simp only [List.map_cons, hp, if_pos]
        unfold dictLookup
        simp
      · simp only [List.map_cons, hp, if_neg, not_false_iff]
        unfold dictLookup
        simp only [hp, if_neg, not_false_iff]
        apply ih
        simp only [List.map_cons, List.mem_cons] at hk
        rcases hk with h | h
        · exact absurd h.symm hp
        · exact h
  · rename_i hk
    unfold dictMem at hk
    induction m with
    | nil => unfold dictLookup; simp
    | cons p rest ih =>
      unfold dictLookup
      by_cases hp : p.1 = k
      · exact absurd (by simp [hp]) hk
      · simp only [List.cons_append, hp, if_neg, not_false_iff]
        exact ih (fun h => hk (by simp only [List.map_cons, List.mem_cons]; right; exact h))

/-- Looking up a key other than `k` ignores the value replacement at `k`. -/
theorem dictLookup_map_ne (k v g : String) (m : List (String × String))
    (h : g ≠ k) :
    dictLookup g (m.map fun p => if p.1 = k then (k, v) else p)
      = dictLookup g m := by
  induction m with
  | nil => rfl
  | cons p rest ih =>
    by_cases hp : p.1 = k
    · simp only [List.map_cons, hp, if_pos]
      unfold dictLookup
      rw [if_neg (fun hkg => h hkg.symm), if_neg (fun hpg => h (hp ▸ hpg).symm)]
      exact ih
    · simp only [List.map_cons, hp, if_neg, not_false_iff]
      unfold dictLookup
      by_cases hg : p.1 = g
      · rw [if_pos hg, if_pos hg]
      · rw [if_neg hg, if_neg hg]
        exact ih

/-- Looking up a key other than `k` ignores a binding for `k` appended at
the end. -/
theorem dictLookup_append_ne (k v g : String) (m : List (String × String))
    (h : g ≠ k) : dictLookup g (m ++ [(k, v)]) = dictLookup g m := by
  induction m with
  | nil =>
    unfold dictLookup
    simp only [List.nil_append]
    rw [if_neg (fun hkg => h hkg.symm)]
    rfl
  | cons p rest ih =>
    unfold dictLookup
    by_cases hg : p.1 = g
    · simp [hg]
    · simp only [List.cons_append, hg, if_neg, not_false_iff]
      exact ih

/-- Looking up a different key is unaffected by an insertion. -/
theorem dictLookup_dictInsert_ne (k v g : String) (m : List (String × String))
    (h : g ≠ k) : dictLookup g (dictInsert k v m) = dictLookup g m := by
  unfold dictInsert
  split
  · exact dictLookup_map_ne k v g m h
  · exact dictLookup_append_ne k v g m h

/-! ## Shape of one `parse_talk` invocation -/

/-- Case analysis for a `parse_talk` call that returns normally: either the
state is untouched (retry exhausted, budget reached, or language mismatch —
the accumulator and `finished_talks` are unchanged and nothing is emitted),
or a transcript for some required language `l` was recorded, in which case
either no record is emitted and `finished_talks` is unchanged, or the
accumulator just became complete for a not-yet-finished talk and its record
is emitted while the talk is added to `finished_talks`. -/
theorem parse_talk_cases {cfg : Config} {gender : Option String}
    {talkId talkName expectedLanguage : String} {retries : Nat}
    {st : PView} {resp : RawResponse} {out : POut}
    (h : parse_talk cfg gender talkId talkName expectedLanguage retries st resp
      = Except.ok out) :
    (out.finished = st.finished ∧ out.talk = st.talk ∧ out.emitted = none)
    ∨ (∃ l t, l ∈ cfg.languages ∧
        out.talk = ⟨dictInsert l t st.talk.data, insert l st.talk.langs⟩ ∧
        ((out.finished = st.finished ∧ out.emitted = none)
          ∨ (talkId ∉ st.finished ∧ out.finished = insert talkId st.finished ∧
             (insert l st.talk.langs).card = cfg.languages.card ∧
             out.emitted = some ⟨talkId, talkName, gender,
               dictInsert l t st.talk.data⟩))) := by
  unfold parse_talk at h
  split at h
  · cases h; left; exact ⟨rfl, rfl, rfl⟩
  · split at h
    · cases h; left; exact ⟨rfl, rfl, rfl⟩
    · split at h
      · exact absurd h (by simp)
      · rename_i language transcript
        split at h
        · rename_i hlang
          match transcript with
          | none => exact absurd h (by simp)
          | some t =>
            simp only at h
            split at h
            · rename_i hfin
              cases h
              right
              exact ⟨language, t, hlang, rfl,
                Or.inr ⟨hfin.2, rfl, hfin.1, rfl⟩⟩
            · split at h
              · cases h
                right
                exact ⟨language, t, hlang, rfl, Or.inl ⟨rfl, rfl⟩⟩
              · cases h
                right
                exact ⟨language, t, hlang, rfl, Or.inl ⟨rfl, rfl⟩⟩
        · cases h; left; exact ⟨rfl, rfl, rfl⟩

/-! ## Crawl invariants -/

/-! ### Step equations -/

/-- Pulling with an exhausted catalog does nothing. -/
theorem start_requests_step_nil {cfg : Config} {s : Sys}
    (h : s.remaining = []) : start_requests_step cfg s = s := by
  unfold start_requests_step
  rw [h]

/-- Pulling an admissible catalog entry issues its gate request. -/
theorem start_requests_step_issue {cfg : Config} {s : Sys} {talkId : String}
    {rest : List String} (h : s.remaining = talkId :: rest)
    (hc : talkId ∉ s.finished ∧ s.finished.card < cfg.maxTalks) :
    start_requests_step cfg s =
      { s with remaining := rest
               pending := s.pending ++ [Req.gate talkId]
               reqLog := s.reqLog ++ [Req.gate talkId] } := by
  unfold start_requests_step
  rw [h]
  simp only [if_pos hc]

/-- Pulling an inadmissible catalog entry silently drops it. -/
theorem start_requests_step_drop {cfg : Config} {s : Sys} {talkId : String}
    {rest : List String} (h : s.remaining = talkId :: rest)
    (hc : ¬(talkId ∉ s.finished ∧ s.finished.card < cfg.maxTalks)) :
    start_requests_step cfg s = { s with remaining := rest } := by
  unfold start_requests_step
  rw [h]
  simp only [if_neg hc]

/-- Responding at an out-of-range index does nothing. -/
theorem respondStep_none {cfg : Config} {init : InitData} {s : Sys}
    {idx : Nat} {raw : Raw} (h : s.pending.get? idx = none) :
    respondStep cfg init s idx raw = s := by
  unfold respondStep
  rw [h]

/-- A page response delivered to a gate request is ignored. -/
theorem respondStep_gate_page {cfg : Config} {init : InitData} {s : Sys}
    {idx : Nat} {talkId : String} {resp : RawResponse}
    (h : s.pending.get? idx = some (Req.gate talkId)) :
    respondStep cfg init s idx (Raw.page resp) = s := by
  unfold respondStep
  rw [h]

/-- An availability response delivered to a fetch request is ignored. -/
theorem respondStep_fetch_avail {cfg : Config} {init : InitData} {s : Sys}
    {idx : Nat} {talkId talkName lang : String} {retries : Nat}
    {urlTail : String} {langs : List String}
    (h : s.pending.get? idx = some (Req.fetch talkId talkName lang retries)) :
    respondStep cfg init s idx (Raw.avail urlTail langs) = s := by
  unfold respondStep
  rw [h]

/-- Gate passes: the accumulator for the talk is freshly created and one
fetch per required language is issued. -/
theorem respondStep_gate_pass {cfg : Config} {init : InitData} {s : Sys}
    {idx : Nat} {talkId : String} {urlTail : String} {langs : List String}
    (h : s.pending.get? idx = some (Req.gate talkId))
    (hsub : cfg.languages ⊆ langs.toFinset) :
    respondStep cfg init s idx (Raw.avail urlTail langs) =
      { s with
        accum := fun i => if i = talkId then (⟨[], ∅⟩ : Talk) else s.accum i
        pending := s.pending.eraseIdx idx ++
          cfg.languagesList.dedup.map (fun l => Req.fetch talkId urlTail l cfg.maxRetries)
        reqLog := s.reqLog ++
          cfg.languagesList.dedup.map (fun l => Req.fetch talkId urlTail l cfg.maxRetries) } := by
  unfold respondStep
  rw [h]
  simp only [check_languages, if_pos hsub]

/-- Gate fails: the talk is marked in `finished_talks` and nothing is
issued. -/
theorem respondStep_gate_skip {cfg : Config} {init : InitData} {s : Sys}
    {idx : Nat} {talkId : String} {urlTail : String} {langs : List String}
    (h : s.pending.get? idx = some (Req.gate talkId))
    (hsub : ¬cfg.languages ⊆ langs.toFinset) :
    respondStep cfg init s idx (Raw.avail urlTail langs) =
      { s with
        finished := insert talkId s.finished
        pending := s.pending.eraseIdx idx } := by
  unfold respondStep
  rw [h]
  simp only [check_languages, if_neg hsub, List.append_nil]

/-- Fetch whose callback raises a decode exception: the request is consumed,
nothing else changes. -/
theorem respondStep_fetch_error {cfg : Config} {init : InitData} {s : Sys}
    {idx : Nat} {talkId talkName lang : String} {retries : Nat}
    {resp : RawResponse}
    (h : s.pending.get? idx = some (Req.fetch talkId talkName lang retries))
    (hp : parse_talk cfg (init.genders talkId) talkId talkName lang retries
      ⟨s.finished, s.accum talkId⟩ resp = Except.error ()) :
    respondStep cfg init s idx (Raw.page resp) =
      { s with pending := s.pending.eraseIdx idx } := by
  unfold respondStep
  rw [h]
  simp only [hp]

/-- Fetch whose callback returns normally: its state updates and issued
requests are applied. -/
theorem respondStep_fetch_ok {cfg : Config} {init : InitData} {s : Sys}
    {idx : Nat} {talkId talkName lang : String} {retries : Nat}
    {resp : RawResponse} {out : POut}
    (h : s.pending.get? idx = some (Req.fetch talkId talkName lang retries))
    (hp : parse_talk cfg (init.genders talkId) talkId talkName lang retries
      ⟨s.finished, s.accum talkId⟩ resp = Except.ok out) :
    respondStep cfg init s idx (Raw.page resp) =
      { s with
        finished := out.finished
        accum := fun i => if i = talkId then out.talk else s.accum i
        pending := s.pending.eraseIdx idx ++ reissueList talkId talkName lang out.reissue
        emitted := s.emitted ++ out.emitted.toList
        reqLog := s.reqLog ++ reissueList talkId talkName lang out.reissue } := by
  unfold respondStep
  rw [h]
  simp only [hp]

/-- Requests reissued by `parse_talk` are fetches for the same talk and
language. -/
theorem mem_reissueList {talkId talkName lang : String} {o : Option Nat}
    {r : Req} (h : r ∈ reissueList talkId talkName lang o) :
    ∃ n, r = Req.fetch talkId talkName lang n := by
  cases o with
  | none => simp [reissueList] at h
  | some n =>
    rw [reissueList, List.mem_singleton] at h
    exact ⟨n, h⟩

/-- Invariants maintained by every crawl state reachable from `initState`:
the replayed ledger ids stay inside `finished_talks`; emitted talk ids are
distinct, finished, and never replayed ledger ids; each accumulator's
transcript keys coincide with its processed-language set and stay inside the
required set; every emitted record's transcript keys are exactly the
required set; and no request (issued, or still pending) or remaining
catalog entry carries a replayed ledger id. -/
structure CrawlInv (cfg : Config) (init : InitData) (s : Sys) : Prop where
  ledger_sub : init.ledger.toFinset ⊆ s.finished
  em_nodup : (s.emitted.map Item.talkId).Nodup
  em_fin : ∀ i ∈ s.emitted.map Item.talkId, i ∈ s.finished
  em_nl : ∀ i ∈ s.emitted.map Item.talkId, i ∉ init.ledger.toFinset
  acc_keys : ∀ id, dictKeys (s.accum id).data = (s.accum id).langs
  acc_sub : ∀ id, (s.accum id).langs ⊆ cfg.languages
  em_keys : ∀ it ∈ s.emitted, dictKeys it.transcripts = cfg.languages
  log_nl : ∀ r ∈ s.reqLog, Req.talkOf r ∉ init.ledger.toFinset
  pend_nl : ∀ r ∈ s.pending, Req.talkOf r ∉ init.ledger.toFinset
  rem_nl : ∀ i ∈ s.remaining, i ∉ init.ledger.toFinset

/-- The initial state satisfies the invariants. -/
theorem initState_inv (cfg : Config) (init : InitData) :
    CrawlInv cfg init (initState init) := by
  refine ⟨?_, ?_, ?_, ?_, ?_, ?_, ?_, ?_, ?_, ?_⟩ <;>
    simp only [initState]
  · exact fun i hi => hi
  · simp
  · simp
  · simp
  · intro id; rfl
  · intro id; exact Finset.empty_subset _
  · simp
  · simp
  · simp
  · intro i hi
    have := List.mem_filter.mp hi
    simpa using this.2

/-- `start_requests_step` preserves the invariants. -/
theorem start_requests_step_inv (cfg : Config) (init : InitData) {s : Sys}
    (h : CrawlInv cfg init s) : CrawlInv cfg init (start_requests_step cfg s) := by
  cases hrem : s.remaining with
  | nil => rw [start_requests_step_nil hrem]; exact h
  | cons talkId rest =>
    have hid : talkId ∉ init.ledger.toFinset :=
      h.rem_nl talkId (by rw [hrem]; exact List.mem_cons_self _ _)
    have hrest : ∀ i ∈ rest, i ∉ init.ledger.toFinset :=
      fun i hi => h.rem_nl i (by rw [hrem]; exact List.mem_cons_of_mem _ hi)
    by_cases hc : talkId ∉ s.finished ∧ s.finished.card < cfg.maxTalks
    · rw [start_requests_step_issue hrem hc]
      refine ⟨h.ledger_sub, h.em_nodup, h.em_fin, h.em_nl, h.acc_keys, h.acc_sub,
        h.em_keys, ?_, ?_, hrest⟩
      · intro r hr
        rcases List.mem_append.mp hr with hr | hr
        · exact h.log_nl r hr
        · rcases List.mem_singleton.mp hr with rfl
          exact hid
      · intro r hr
        rcases List.mem_append.mp hr with hr | hr
        · exact h.pend_nl r hr
        · rcases List.mem_singleton.mp hr with rfl
          exact hid
    · rw [start_requests_step_drop hrem hc]
      exact ⟨h.ledger_sub, h.em_nodup, h.em_fin, h.em_nl, h.acc_keys, h.acc_sub,
        h.em_keys, h.log_nl, h.pend_nl, hrest⟩

/-- `respondStep` preserves the invariants. -/
theorem respondStep_inv (cfg : Config) (init : InitData) {s : Sys}
    (idx : Nat) (raw : Raw) (h : CrawlInv cfg init s) :
    CrawlInv cfg init (respondStep cfg init s idx raw) := by
  cases hget : s.pending.get? idx with
  | none => rw [respondStep_none hget]; exact h
  | some req =>
    have hreq : req ∈ s.pending := List.get?_mem hget
    have hreqid : Req.talkOf req ∉ init.ledger.toFinset := h.pend_nl req hreq
    have hpend_erase : ∀ r ∈ s.pending.eraseIdx idx,
        Req.talkOf r ∉ init.ledger.toFinset :=
      fun r hr => h.pend_nl r (List.eraseIdx_subset _ _ hr)
    cases req with
    | gate talkId =>
      cases raw with
      | page resp => rw [respondStep_gate_page hget]; exact h
      | avail urlTail langs =>
        by_cases hsub : cfg.languages ⊆ langs.toFinset
        · rw [respondStep_gate_pass hget hsub]
          refine ⟨h.ledger_sub, h.em_nodup, h.em_fin, h.em_nl, ?_, ?_, h.em_keys,
            ?_, ?_, h.rem_nl⟩
          · intro id
            dsimp only
            by_cases hi : id = talkId
            · rw [if_pos hi]; simp [dictKeys]
            · rw [if_neg hi]; exact h.acc_keys id
          · intro id
            dsimp only
            by_cases hi : id = talkId
            · rw [if_pos hi]; exact Finset.empty_subset _
            · rw [if_neg hi]; exact h.acc_sub id
          · intro r hr
            rcases List.mem_append.mp hr with hr | hr
            · exact h.log_nl r hr
            · rcases List.mem_map.mp hr with ⟨l, _, rfl⟩
              exact hreqid
          · intro r hr
            rcases List.mem_append.mp hr with hr | hr
            · exact hpend_erase r hr
            · rcases List.mem_map.mp hr with ⟨l, _, rfl⟩
              exact hreqid
        · rw [respondStep_gate_skip hget hsub]
          exact ⟨fun i hi => Finset.mem_insert_of_mem (h.ledger_sub hi),
            h.em_nodup,
            fun i hi => Finset.mem_insert_of_mem (h.em_fin i hi),
            h.em_nl, h.acc_keys, h.acc_sub, h.em_keys, h.log_nl,
            hpend_erase, h.rem_nl⟩
    | fetch talkId talkName lang retries =>
      cases raw with
      | avail urlTail langs => rw [respondStep_fetch_avail hget]; exact h
      | page resp =>
        cases hp : parse_talk cfg (init.genders talkId) talkId talkName lang retries
            ⟨s.finished, s.accum talkId⟩ resp with
        | error e =>
          rw [respondStep_fetch_error hget (by rw [hp])]
          exact ⟨h.ledger_sub, h.em_nodup, h.em_fin, h.em_nl, h.acc_keys,
            h.acc_sub, h.em_keys, h.log_nl, hpend_erase, h.rem_nl⟩
        | ok out =>
          rw [respondStep_fetch_ok hget hp]
          have hnew : ∀ r ∈ reissueList talkId talkName lang out.reissue,
              Req.talkOf r ∉ init.ledger.toFinset := by
            intro r hr
            rcases mem_reissueList hr with ⟨n, rfl⟩
            exact hreqid
          have hlog : ∀ r ∈ s.reqLog ++ reissueList talkId talkName lang out.reissue,
              Req.talkOf r ∉ init.ledger.toFinset := by
            intro r hr
            rcases List.mem_append.mp hr with hr | hr
            · exact h.log_nl r hr
            · exact hnew r hr
          have hpend : ∀ r ∈ s.pending.eraseIdx idx ++
              reissueList talkId talkName lang out.reissue,
              Req.talkOf r ∉ init.ledger.toFinset := by
            intro r hr
            rcases List.mem_append.mp hr with hr | hr
            · exact hpend_erase r hr
            · exact hnew r hr
          rcases parse_talk_cases hp with
            ⟨hfin, htalk, hem⟩ | ⟨l, t, hl, htalk, hrest⟩
          · -- state untouched
            refine ⟨?_, ?_, ?_, ?_, ?_, ?_, ?_, hlog, hpend, h.rem_nl⟩
            · rw [hfin]; exact h.ledger_sub
            · simpa [hem] using h.em_nodup
            · simp only [hem, hfin, Option.toList_none, List.append_nil]
              exact h.em_fin
            · simpa [hem] using h.em_nl
            · intro id
              dsimp only
              by_cases hi : id = talkId
              · rw [if_pos hi, htalk]; exact h.acc_keys talkId
              · rw [if_neg hi]; exact h.acc_keys id
            · intro id
              dsimp only
              by_cases hi : id = talkId
              · rw [if_pos hi, htalk]; exact h.acc_sub talkId
              · rw [if_neg hi]; exact h.acc_sub id
            · simpa [hem] using h.em_keys
          · -- a transcript for l was recorded
            have hkeys : dictKeys (dictInsert l t (s.accum talkId).data)
                = insert l (s.accum talkId).langs := by
              rw [dictKeys_dictInsert, h.acc_keys talkId]
            have hsub : insert l (s.accum talkId).langs ⊆ cfg.languages :=
              Finset.insert_subset hl (h.acc_sub talkId)
            have hacc_keys : ∀ id, dictKeys ((fun i => if i = talkId then out.talk
                else s.accum i) id).data = ((fun i => if i = talkId then out.talk
                else s.accum i) id).langs := by
              intro id
              by_cases hi : id = talkId <;> simp [hi, htalk, hkeys, h.acc_keys id]
            have hacc_sub : ∀ id, ((fun i => if i = talkId then out.talk
                else s.accum i) id).langs ⊆ cfg.languages := by
              intro id
              by_cases hi : id = talkId <;> simp [hi, htalk, hsub, h.acc_sub id]
            rcases hrest with ⟨hfin, hem⟩ | ⟨hnot, hfin, hcard, hem⟩
            · -- no record emitted
              refine ⟨?_, ?_, ?_, ?_, hacc_keys, hacc_sub, ?_, hlog, hpend, h.rem_nl⟩
              · rw [hfin]; exact h.ledger_sub
              · simpa [hem] using h.em_nodup
              · simp only [hem, hfin, Option.toList_none, List.append_nil]
                exact h.em_fin
              · simpa [hem] using h.em_nl
              · simpa [hem] using h.em_keys
            · -- the record for talkId is emitted
              have hkeq : insert l (s.accum talkId).langs = cfg.languages :=
                Finset.eq_of_subset_of_card_le hsub (le_of_eq hcard.symm)
              simp only at hnot hfin hcard hem
              refine ⟨?_, ?_, ?_, ?_, hacc_keys, hacc_sub, ?_, hlog, hpend, h.rem_nl⟩
              · rw [hfin]
                exact fun i hi => Finset.mem_insert_of_mem (h.ledger_sub hi)
              · rw [hem]
                simp only [Option.toList_some, List.map_append, List.map_cons,
                  List.map_nil]
                rw [List.nodup_append]
                refine ⟨h.em_nodup, List.nodup_singleton _, ?_⟩
                intro i hi hmem
                rcases List.mem_singleton.mp hmem with rfl
                exact hnot (h.em_fin _ hi)
              · rw [hem, hfin]
                intro i hi
                simp only [Option.toList_some, List.map_append, List.map_cons,
                  List.map_nil, List.mem_append, List.mem_singleton] at hi
                rcases hi with hi | rfl
                · exact Finset.mem_insert_of_mem (h.em_fin i hi)
                · exact Finset.mem_insert_self _ _
              · rw [hem]
                intro i hi
                simp only [Option.toList_some, List.map_append, List.map_cons,
                  List.map_nil, List.mem_append, List.mem_singleton] at hi
                rcases hi with hi | rfl
                · exact h.em_nl i hi
                · intro hmem
                  exact hnot (h.ledger_sub hmem)
              · rw [hem]
                intro it hit
                rcases List.mem_append.mp hit with hit | hit
                · exact h.em_keys it hit
                · rcases List.mem_singleton.mp (by simpa using hit) with rfl
                  simpa using hkeys.trans hkeq

/-- Every scheduler event preserves the invariants. -/
theorem step_inv (cfg : Config) (init : InitData) {s : Sys} (e : Event)
    (h : CrawlInv cfg init s) : CrawlInv cfg init (step cfg init s e) := by
  cases e with
  | pull => exact start_requests_step_inv cfg init h
  | respond idx raw => exact respondStep_inv cfg init idx raw h

/-- Every reachable crawl state satisfies the invariants. -/
theorem run_inv (cfg : Config) (init : InitData) (script : List Event) :
    CrawlInv cfg init (run cfg init script) := by
  suffices hgen : ∀ (l : List Event) (s : Sys), CrawlInv cfg init s →
      CrawlInv cfg init (l.foldl (step cfg init) s) by
    exact hgen script (initState init) (initState_inv cfg init)
  intro l
  induction l with
  | nil => intro s hs; exact hs
  | cons e rest ih =>
    intro s hs
    exact ih _ (step_inv cfg init e hs)

/-! ## Evaluation lemmas for `parse_talk` -/

/-- Unfolding `step` at a pull event. -/
theorem step_pull (cfg : Config) (init : InitData) (s : Sys) :
    step cfg init s Event.pull = start_requests_step cfg s := rfl

/-- Unfolding `step` at a response event. -/
theorem step_respond (cfg : Config) (init : InitData) (s : Sys) (idx : Nat)
    (raw : Raw) :
    step cfg init s (Event.respond idx raw) = respondStep cfg init s idx raw := rfl

/-- A response arriving on a request whose retry counter is exhausted is
dropped unprocessed (line 111), whatever its content. -/
theorem parse_talk_exhausted (cfg : Config) (gender : Option String)
    (talkId talkName expectedLanguage : String) (st : PView) (resp : RawResponse) :
    parse_talk cfg gender talkId talkName expectedLanguage 0 st resp
      = Except.ok ⟨st.finished, st.talk, none, none⟩ := by
  unfold parse_talk
  rw [if_pos rfl]

/-- Once `finished_talks` has reached `max_talks`, every response with
retries remaining is dropped unprocessed (line 115), whatever its content. -/
theorem parse_talk_budget (cfg : Config) (gender : Option String)
    (talkId talkName expectedLanguage : String) (retries : Nat) (st : PView)
    (resp : RawResponse) (hr : retries ≠ 0)
    (hb : cfg.maxTalks ≤ st.finished.card) :
    parse_talk cfg gender talkId talkName expectedLanguage retries st resp
      = Except.ok ⟨st.finished, st.talk, none, none⟩ := by
  unfold parse_talk
  rw [if_neg hr, if_pos hb]

/-- A decode failure raises out of the callback (lines 119-121): no state
change, no reissue. -/
theorem parse_talk_noData (cfg : Config) (gender : Option String)
    (talkId talkName expectedLanguage : String) (retries : Nat) (st : PView)
    (hr : retries ≠ 0) (hb : st.finished.card < cfg.maxTalks) :
    parse_talk cfg gender talkId talkName expectedLanguage retries st
      RawResponse.noData = Except.error () := by
  unfold parse_talk
  rw [if_neg hr, if_neg (not_le.mpr hb)]

/-- A response decoding to a language outside the required set consumes one
retry unit and reissues the fetch (lines 145-148). -/
theorem parse_talk_mismatch (cfg : Config) (gender : Option String)
    (talkId talkName expectedLanguage : String) (retries : Nat) (st : PView)
    (l : String) (tr : Option String) (hr : retries ≠ 0)
    (hb : st.finished.card < cfg.maxTalks) (hl : l ∉ cfg.languages) :
    parse_talk cfg gender talkId talkName expectedLanguage retries st
      (RawResponse.data l tr)
      = Except.ok ⟨st.finished, st.talk, none, some (retries - 1)⟩ := by
  unfold parse_talk
  rw [if_neg hr, if_neg (not_le.mpr hb)]
  simp only [if_neg hl]

/-- A response decoding to a required language `l` records its transcript
(lines 123-127) and then either finalizes the talk (lines 129-138), reissues
the fetch for a still-missing expected language (lines 140-142), or does
nothing more. -/
theorem parse_talk_record (cfg : Config) (gender : Option String)
    (talkId talkName expectedLanguage : String) (retries : Nat) (st : PView)
    (l t : String) (hr : retries ≠ 0) (hb : st.finished.card < cfg.maxTalks)
    (hl : l ∈ cfg.languages) :
    parse_talk cfg gender talkId talkName expectedLanguage retries st
      (RawResponse.data l (some t))
      = if (insert l st.talk.langs).card = cfg.languages.card ∧ talkId ∉ st.finished then
          Except.ok ⟨insert talkId st.finished,
            ⟨dictInsert l t st.talk.data, insert l st.talk.langs⟩,
            some ⟨talkId, talkName, gender, dictInsert l t st.talk.data⟩, none⟩
        else if expectedLanguage ∉ insert l st.talk.langs then
          Except.ok ⟨st.finished,
            ⟨dictInsert l t st.talk.data, insert l st.talk.langs⟩, none,
            some (retries - 1)⟩
        else
          Except.ok ⟨st.finished,
            ⟨dictInsert l t st.talk.data, insert l st.talk.langs⟩, none, none⟩ := by
  unfold parse_talk
  rw [if_neg hr, if_neg (not_le.mpr hb)]
  simp only [if_pos hl]

/-! ## The retry-exhaustion scenario (claim C5) -/

/-- The initial state of the retry-exhaustion scenario is in phase 1. -/
theorem phase5_init : Phase5 (initState init5) := by
  left
  exact ⟨by decide, by decide, by decide, by decide, by decide⟩

/-- The required-language list of `cfg5` deduplicates to `["en"]`. -/
theorem cfg5_dedup (b : Nat) : (cfg5 b).languagesList.dedup = ["en"] := rfl

/-- Every scenario event keeps the crawl state inside the six phases. -/
theorem phase5_step (b : Nat) (hb : 0 < b) (s : Sys) (e : Event)
    (he : scenario5 e) (hs : Phase5 s) : Phase5 (step (cfg5 b) init5 s e) := by
  rcases hs with ⟨hf, hm, hr, hp, hl⟩ | ⟨hf, hm, hr, hp, hl⟩ |
    ⟨nm, hf, hm, hr, hp, hl⟩ | ⟨nm, hf, hm, hr, hp, hl⟩ |
    ⟨nm, hf, hm, hr, hp, hl⟩ | ⟨nm, hf, hm, hr, hp, hl⟩
  · -- phase 1: initial
    cases e with
    | pull =>
      rw [step_pull, start_requests_step_issue hr
        ⟨by rw [hf]; simp, by rw [hf]; simpa [cfg5] using hb⟩]
      right; left
      refine ⟨?_, ?_, ?_, ?_, ?_⟩ <;> simp [hf, hm, hp, hl]
    | respond idx raw =>
      have hnone : s.pending.get? idx = none := by rw [hp]; rfl
      rw [step_respond, respondStep_none hnone]
      exact Or.inl ⟨hf, hm, hr, hp, hl⟩
  · -- phase 2: gate pending
    cases e with
    | pull =>
      rw [step_pull, start_requests_step_nil hr]
      exact Or.inr (Or.inl ⟨hf, hm, hr, hp, hl⟩)
    | respond idx raw =>
      cases idx with
      | succ n =>
        have hnone : s.pending.get? (n + 1) = none := by rw [hp]; rfl
        rw [step_respond, respondStep_none hnone]
        exact Or.inr (Or.inl ⟨hf, hm, hr, hp, hl⟩)
      | zero =>
        have hget : s.pending.get? 0 = some (Req.gate "A") := by rw [hp]; rfl
        cases raw with
        | page resp =>
          rw [step_respond, respondStep_gate_page hget]
          exact Or.inr (Or.inl ⟨hf, hm, hr, hp, hl⟩)
        | avail nm langs =>
          have hen : "en" ∈ langs := by simpa [scenario5] using he
          have hsub : (cfg5 b).languages ⊆ langs.toFinset := by
            intro x hx
            have hx' : x = "en" := by
              simpa [cfg5, Config.languages] using hx
            subst hx'
            exact List.mem_toFinset.mpr hen
          rw [step_respond, respondStep_gate_pass hget hsub]
          right; right; left
          refine ⟨nm, ?_, ?_, ?_, ?_, ?_⟩ <;>
            simp [hf, hm, hp, hl, hr, cfg5_dedup, cfg5]
  · -- phase 3: fetch pending with 2 retries
    cases e with
    | pull =>
      rw [step_pull, start_requests_step_nil hr]
      exact Or.inr (Or.inr (Or.inl ⟨nm, hf, hm, hr, hp, hl⟩))
    | respond idx raw =>
      cases idx with
      | succ n =>
        have hnone : s.pending.get? (n + 1) = none := by rw [hp]; rfl
        rw [step_respond, respondStep_none hnone]
        exact Or.inr (Or.inr (Or.inl ⟨nm, hf, hm, hr, hp, hl⟩))
      | zero =>
        have hget : s.pending.get? 0 = some (Req.fetch "A" nm "en" 2) := by
          rw [hp]; rfl
        cases raw with
        | avail u langs =>
          rw [step_respond, respondStep_fetch_avail hget]
          exact Or.inr (Or.inr (Or.inl ⟨nm, hf, hm, hr, hp, hl⟩))
        | page resp =>
          cases resp with
          | noData => exact absurd he (by simp [scenario5])
          | data l tr =>
            have hlne : l ≠ "en" := by simpa [scenario5] using he
            have hlm : l ∉ (cfg5 b).languages := by
              simp [cfg5, Config.languages, hlne]
            have hpt : parse_talk (cfg5 b) (init5.genders "A") "A" nm "en" 2
                ⟨s.finished, s.accum "A"⟩ (RawResponse.data l tr)
                = Except.ok ⟨s.finished, s.accum "A", none, some 1⟩ :=
              parse_talk_mismatch _ _ _ _ _ _ _ l tr (by decide)
                (by simpa [cfg5, hf] using hb) hlm
            rw [step_respond, respondStep_fetch_ok hget hpt]
            right; right; right; left
            refine ⟨nm, ?_, ?_, ?_, ?_, ?_⟩ <;>
              simp [hf, hm, hp, hl, hr, reissueList]
  · -- phase 4: fetch pending with 1 retry
    cases e with
    | pull =>
      rw [step_pull, start_requests_step_nil hr]
      exact Or.inr (Or.inr (Or.inr (Or.inl ⟨nm, hf, hm, hr, hp, hl⟩)))
    | respond idx raw =>
      cases idx with
      | succ n =>
        have hnone : s.pending.get? (n + 1) = none := by rw [hp]; rfl
        rw [step_respond, respondStep_none hnone]
        exact Or.inr (Or.inr (Or.inr (Or.inl ⟨nm, hf, hm, hr, hp, hl⟩)))
      | zero =>
        have hget : s.pending.get? 0 = some (Req.fetch "A" nm "en" 1) := by
          rw [hp]; rfl
        cases raw with
        | avail u langs =>
          rw [step_respond, respondStep_fetch_avail hget]
          exact Or.inr (Or.inr (Or.inr (Or.inl ⟨nm, hf, hm, hr, hp, hl⟩)))
        | page resp =>
          cases resp with
          | noData => exact absurd he (by simp [scenario5])
          | data l tr =>
            have hlne : l ≠ "en" := by simpa [scenario5] using he
            have hlm : l ∉ (cfg5 b).languages := by
              simp [cfg5, Config.languages, hlne]
            have hpt : parse_talk (cfg5 b) (init5.genders "A") "A" nm "en" 1
                ⟨s.finished, s.accum "A"⟩ (RawResponse.data l tr)
                = Except.ok ⟨s.finished, s.accum "A", none, some 0⟩ :=
              parse_talk_mismatch _ _ _ _ _ _ _ l tr (by decide)
                (by simpa [cfg5, hf] using hb) hlm
            rw [step_respond, respondStep_fetch_ok hget hpt]
            right; right; right; right; left
            refine ⟨nm, ?_, ?_, ?_, ?_, ?_⟩ <;>
              simp [hf, hm, hp, hl, hr, reissueList]
  · -- phase 5: fetch pending with 0 retries
    cases e with
    | pull =>
      rw [step_pull, start_requests_step_nil hr]
      exact Or.inr (Or.inr (Or.inr (Or.inr (Or.inl ⟨nm, hf, hm, hr, hp, hl⟩))))
    | respond idx raw =>
      cases idx with
      | succ n =>
        have hnone : s.pending.get? (n + 1) = none := by rw [hp]; rfl
        rw [step_respond, respondStep_none hnone]
        exact Or.inr (Or.inr (Or.inr (Or.inr (Or.inl ⟨nm, hf, hm, hr, hp, hl⟩))))
      | zero =>
        have hget : s.pending.get? 0 = some (Req.fetch "A" nm "en" 0) := by
          rw [hp]; rfl
        cases raw with
        | avail u langs =>
          rw [step_respond, respondStep_fetch_avail hget]
          exact Or.inr (Or.inr (Or.inr (Or.inr (Or.inl ⟨nm, hf, hm, hr, hp, hl⟩))))
        | page resp =>
          have hpt : parse_talk (cfg5 b) (init5.genders "A") "A" nm "en" 0
              ⟨s.finished, s.accum "A"⟩ resp
              = Except.ok ⟨s.finished, s.accum "A", none, none⟩ :=
            parse_talk_exhausted _ _ _ _ _ _ _
          rw [step_respond, respondStep_fetch_ok hget hpt]
          right; right; right; right; right
          refine ⟨nm, ?_, ?_, ?_, ?_, ?_⟩ <;>
            simp [hf, hm, hp, hl, hr, reissueList]
  · -- phase 6: drained
    cases e with
    | pull =>
      rw [step_pull, start_requests_step_nil hr]
      exact Or.inr (Or.inr (Or.inr (Or.inr (Or.inr ⟨nm, hf, hm, hr, hp, hl⟩))))
    | respond idx raw =>
      have hnone : s.pending.get? idx = none := by rw [hp]; rfl
      rw [step_respond, respondStep_none hnone]
      exact Or.inr (Or.inr (Or.inr (Or.inr (Or.inr ⟨nm, hf, hm, hr, hp, hl⟩))))

/-- What the six phases say about the observable crawl state: nothing is
ever emitted, at most 3 fetches are ever issued for `("A", "en")`, and once
the crawl is drained (no pending request, catalog exhausted) exactly 3 were
issued. -/
theorem phase5_extract (s : Sys) (hs : Phase5 s) :
    s.emitted = [] ∧ countFetchFor "A" "en" s.reqLog ≤ 3 ∧
      (s.pending = [] ∧ s.remaining = [] →
        countFetchFor "A" "en" s.reqLog = 3) := by
  rcases hs with ⟨hf, hm, hr, hp, hl⟩ | ⟨hf, hm, hr, hp, hl⟩ |
    ⟨nm, hf, hm, hr, hp, hl⟩ | ⟨nm, hf, hm, hr, hp, hl⟩ |
    ⟨nm, hf, hm, hr, hp, hl⟩ | ⟨nm, hf, hm, hr, hp, hl⟩ <;>
    refine ⟨hm, ?_, ?_⟩ <;>
    simp [hl, countFetchFor, Req.isFetchFor, hp, hr]

/-! ## Claim theorems -/

/-- C1: for every output record emitted by any crawl, the key set of its
`TRANSCRIPTS` mapping is exactly the configured required language set
`self.languages` — never a strict subset or superset. -/
theorem c1_output_record_keys_exact (cfg : Config) (init : InitData)
    (script : List Event) (it : Item)
    (h : it ∈ (run cfg init script).emitted) :
    dictKeys it.transcripts = cfg.languages :=
  (run_inv cfg init script).em_keys it h

/-- C1 witness: a concrete crawl that completes talk `A` emits a record
whose transcript keys are exactly `{"en"}`. -/
theorem c1_witness :
    dictKeys (Item.mk "A" "A" none [("en", "hello")]).transcripts
      = cfgA.languages :=
  c1_output_record_keys_exact cfgA initA scriptA _ (by decide)

/-- C2: the finalize transition happens at most once per talk identifier
across the whole ledger/output stream: the emitted identifiers are pairwise
distinct, and no identifier replayed from the ledger at startup is ever
emitted again — for every script, hence also under duplicate or late facet
arrivals. -/
theorem c2_finalize_at_most_once (cfg : Config) (init : InitData)
    (script : List Event) :
    ((run cfg init script).emitted.map Item.talkId).Nodup ∧
    ∀ i ∈ init.ledger, i ∉ (run cfg init script).emitted.map Item.talkId := by
  refine ⟨(run_inv cfg init script).em_nodup, ?_⟩
  intro i hi hmem
  exact (run_inv cfg init script).em_nl i hmem (List.mem_toFinset.mpr hi)

/-- C2 witness: in a crawl seeded with ledger id `Z` that completes talk
`A`, the replayed id `Z` is not emitted again. -/
theorem c2_witness :
    ("Z" : String) ∉ (run cfgA2 initZ scriptA).emitted.map Item.talkId :=
  (c2_finalize_at_most_once cfgA2 initZ scriptA).2 "Z" (by decide)

/-- C3 counterexample: with completion budget 1, talks `A` and `B` are both
admitted and their gate and fetch requests issued; `A` completes first,
reaching the budget.  `B`'s fetch response — a perfectly valid matching
transcript — is then delivered (afterwards nothing is pending), yet `B`'s
accumulator is still empty and only `A` was emitted: the in-flight response
was discarded at line 115, so an already-admitted item does NOT run to
completion once the budget is reached, contrary to the claim. -/
theorem c3_counterexample :
    Req.fetch "B" "B" "en" 10 ∈ (run cfgA initAB scriptC3).reqLog ∧
    (run cfgA initAB scriptC3).pending = [] ∧
    (run cfgA initAB scriptC3).remaining = [] ∧
    (run cfgA initAB scriptC3).emitted.map Item.talkId = ["A"] ∧
    (run cfgA initAB scriptC3).accum "B" = emptyTalk := by
  decide

/-- C3 (amended): reaching the completion budget stops new admissions, and
additionally every subsequently processed fetch response (with retries
remaining) is discarded outright — state unchanged, nothing emitted, no
reissue — so in-flight items admitted before the budget was reached are not
finalized afterwards. -/
theorem c3_amended_budget_discards_inflight (cfg : Config) :
    (∀ (gender : Option String) (talkId talkName lang : String) (retries : Nat)
        (st : PView) (resp : RawResponse), retries ≠ 0 →
        cfg.maxTalks ≤ st.finished.card →
        parse_talk cfg gender talkId talkName lang retries st resp
          = Except.ok ⟨st.finished, st.talk, none, none⟩)
    ∧ (∀ s : Sys, cfg.maxTalks ≤ s.finished.card →
        (start_requests_step cfg s).pending = s.pending ∧
        (start_requests_step cfg s).reqLog = s.reqLog ∧
        (start_requests_step cfg s).emitted = s.emitted) := by
  refine ⟨fun gender talkId talkName lang retries st resp hr hb =>
    parse_talk_budget cfg gender talkId talkName lang retries st resp hr hb, ?_⟩
  intro s hbud
  cases hrem : s.remaining with
  | nil => rw [start_requests_step_nil hrem]; exact ⟨rfl, rfl, rfl⟩
  | cons talkId rest =>
    rw [start_requests_step_drop hrem (fun hc => absurd hc.2 (not_lt.mpr hbud))]
    exact ⟨rfl, rfl, rfl⟩

/-- C3 witness: with the budget (1) already consumed, talk `B`'s valid
matching response is dropped without any effect. -/
theorem c3_witness :
    parse_talk cfgA none "B" "B" "en" 10 ⟨{"A"}, emptyTalk⟩
      (RawResponse.data "en" (some "tb"))
      = Except.ok ⟨{"A"}, emptyTalk, none, none⟩ :=
  (c3_amended_budget_discards_inflight cfgA).1 none "B" "B" "en" 10
    ⟨{"A"}, emptyTalk⟩ _ (by decide) (by decide)

/-- C4 counterexample: talk `A` fails the availability gate (no languages
offered); it lands in the same `finished_talks` set used for completed
talks, and because the admission check at line 76 compares that set's size
against `MAX_TALKS = 1`, talk `B` is never admitted even though nothing was
completed: the skipped item WAS counted against the completion budget and
merged with completed identifiers, contrary to the claim. -/
theorem c4_counterexample :
    (run cfgA initAB scriptC4).finished = {"A"} ∧
    (run cfgA initAB scriptC4).emitted = [] ∧
    (run cfgA initAB scriptC4).reqLog = [Req.gate "A"] ∧
    (run cfgA initAB scriptC4).remaining = [] := by
  decide

/-- C4 (amended): an item rejected by the availability gate is recorded in
the same `finished_talks` set as completed items (with no distinguishing
state) and no fetch is issued for it; since the admission check measures
that same set against the budget, skipped items do count against the
completion budget. -/
theorem c4_amended_skip_counts_against_budget (cfg : Config)
    (talkId talkName : String) (availableLanguages : List String)
    (finished : Finset String)
    (h : ¬cfg.languages ⊆ availableLanguages.toFinset) :
    check_languages cfg talkId talkName availableLanguages finished
      = ⟨insert talkId finished, none, []⟩ := by
  unfold check_languages
  rw [if_neg h]

/-- C4 witness: a gate failure for talk `A` merges `A` into the finished
set. -/
theorem c4_witness :
    check_languages cfgA "A" "A" [] ∅ = ⟨{"A"}, none, []⟩ :=
  c4_amended_skip_counts_against_budget cfgA "A" "A" [] ∅ (by decide)

/-- C5: with `MAX_RETRIES = 2` and a fetch that deterministically returns a
wrong language code every time (while the gate does offer the required
language), any crawl issues at most 3 fetches for `("A", "en")`, exactly 3
once it is drained (1 original + 2 retries, the third response being
dropped at the retry-exhaustion check with no further fetch), and the item
never appears in the output. -/
theorem c5_retry_exhaustion_exactly_three (b : Nat) (hb : 0 < b)
    (script : List Event) (hsc : ∀ e ∈ script, scenario5 e) :
    (run (cfg5 b) init5 script).emitted = [] ∧
    countFetchFor "A" "en" (run (cfg5 b) init5 script).reqLog ≤ 3 ∧
    ((run (cfg5 b) init5 script).pending = [] ∧
      (run (cfg5 b) init5 script).remaining = [] →
      countFetchFor "A" "en" (run (cfg5 b) init5 script).reqLog = 3) := by
  have hphase : Phase5 (run (cfg5 b) init5 script) := by
    suffices hgen : ∀ (l : List Event) (s : Sys), Phase5 s →
        (∀ e ∈ l, scenario5 e) → Phase5 (l.foldl (step (cfg5 b) init5) s) by
      exact hgen script (initState init5) phase5_init hsc
    intro l
    induction l with
    | nil => exact fun s hs _ => hs
    | cons e rest ih =>
      intro s hs hl
      exact ih _ (phase5_step b hb s e (hl e (List.mem_cons_self _ _)) hs)
        (fun e' he' => hl e' (List.mem_cons_of_mem _ he'))
  exact phase5_extract _ hphase

/-- C5 witness: the canonical deterministic wrong-language crawl issues
exactly 3 fetches for `("A", "en")` and emits nothing. -/
theorem c5_witness :
    countFetchFor "A" "en" (run (cfg5 1) init5 script5).reqLog = 3 ∧
    (run (cfg5 1) init5 script5).emitted = [] := by
  obtain ⟨h1, _, h3⟩ :=
    c5_retry_exhaustion_exactly_three 1 (by decide) script5 (by decide)
  exact ⟨h3 ⟨by decide, by decide⟩, h1⟩

/-- C6 counterexample: a fetch response that decodes successfully to the
expected, required, not-yet-recorded language `en` arrives on the request
whose retry counter has reached 0.  It is discarded at line 111: nothing is
recorded in the accumulator — so a matching response CAN be discarded,
contrary to the claim. -/
theorem c6_counterexample :
    parse_talk cfgA none "A" "A" "en" 0 ⟨∅, emptyTalk⟩
      (RawResponse.data "en" (some "hello"))
      = Except.ok ⟨∅, emptyTalk, none, none⟩ := rfl

/-- C6 (amended): provided the response is processed with a nonzero retry
counter and before the completion budget is reached, a successfully decoded
response whose language equals the expected, required, not-yet-recorded
facet `f` records its payload under `f` in the accumulator (and finalizes
the talk if this completed it). -/
theorem c6_amended_match_recorded (cfg : Config) (gender : Option String)
    (talkId talkName f : String) (retries : Nat) (st : PView) (t : String)
    (hr : retries ≠ 0) (hb : st.finished.card < cfg.maxTalks)
    (hf : f ∈ cfg.languages) (_hnew : f ∉ st.talk.langs) :
    parse_talk cfg gender talkId talkName f retries st
        (RawResponse.data f (some t))
      = (if (insert f st.talk.langs).card = cfg.languages.card ∧
            talkId ∉ st.finished then
          Except.ok ⟨insert talkId st.finished,
            ⟨dictInsert f t st.talk.data, insert f st.talk.langs⟩,
            some ⟨talkId, talkName, gender, dictInsert f t st.talk.data⟩, none⟩
        else
          Except.ok ⟨st.finished,
            ⟨dictInsert f t st.talk.data, insert f st.talk.langs⟩, none, none⟩)
    ∧ dictLookup f (dictInsert f t st.talk.data) = some t := by
  refine ⟨?_, dictLookup_dictInsert_self f t st.talk.data⟩
  rw [parse_talk_record cfg gender talkId talkName f retries st f t hr hb hf]
  by_cases hc : (insert f st.talk.langs).card = cfg.languages.card ∧
      talkId ∉ st.finished
  · rw [if_pos hc, if_pos hc]
  · rw [if_neg hc, if_neg hc,
      if_neg (not_not_intro (Finset.mem_insert_self f st.talk.langs))]

/-- C6 witness: a matching `en` response with 3 retries left records its
payload. -/
theorem c6_witness :
    dictLookup "en" (dictInsert "en" "hi" emptyTalk.data) = some "hi" :=
  (c6_amended_match_recorded cfgEnFr none "A" "A" "en" 3 ⟨∅, emptyTalk⟩ "hi"
    (by decide) (by decide) (by decide) (by decide)).2

/-- C7 counterexample: a duplicate response for the already-recorded facet
`en` (carrying a different payload `new`) is NOT a no-op on the accumulator:
line 126 overwrites the stored payload `old` with `new`.  The recorded-facet
set is unchanged, but the payload mapping is not. -/
theorem c7_counterexample :
    parse_talk cfgEnFr none "A" "A" "en" 5 ⟨∅, talkOldEn⟩
      (RawResponse.data "en" (some "new"))
      = Except.ok ⟨∅, ⟨[("en", "new")], {"en"}⟩, none, none⟩ := rfl

/-- C7 (amended): a response carrying an already-recorded facet `f`
(processed with retries remaining and budget unreached) leaves the
recorded-facet set unchanged and triggers no reissue, but it overwrites the
payload stored under `f` with the new response's payload; payloads of other
facets are untouched.  (It emits the record only in the unreachable corner
where the accumulator is complete but the talk not yet finished.) -/
theorem c7_amended_duplicate_overwrites (cfg : Config) (gender : Option String)
    (talkId talkName f : String) (retries : Nat) (st : PView) (t : String)
    (hr : retries ≠ 0) (hb : st.finished.card < cfg.maxTalks)
    (hf : f ∈ cfg.languages) (hdup : f ∈ st.talk.langs) :
    parse_talk cfg gender talkId talkName f retries st
        (RawResponse.data f (some t))
      = (if st.talk.langs.card = cfg.languages.card ∧ talkId ∉ st.finished then
          Except.ok ⟨insert talkId st.finished,
            ⟨dictInsert f t st.talk.data, st.talk.langs⟩,
            some ⟨talkId, talkName, gender, dictInsert f t st.talk.data⟩, none⟩
        else
          Except.ok ⟨st.finished,
            ⟨dictInsert f t st.talk.data, st.talk.langs⟩, none, none⟩)
    ∧ dictLookup f (dictInsert f t st.talk.data) = some t
    ∧ ∀ g, g ≠ f →
        dictLookup g (dictInsert f t st.talk.data) = dictLookup g st.talk.data := by
  have hins : insert f st.talk.langs = st.talk.langs :=
    Finset.insert_eq_self.mpr hdup
  refine ⟨?_, dictLookup_dictInsert_self f t st.talk.data,
    fun g hg => dictLookup_dictInsert_ne f t g st.talk.data hg⟩
  rw [parse_talk_record cfg gender talkId talkName f retries st f t hr hb hf,
    hins]
  by_cases hc : st.talk.langs.card = cfg.languages.card ∧ talkId ∉ st.finished
  · rw [if_pos hc, if_pos hc]
  · rw [if_neg hc, if_neg hc, if_neg (not_not_intro hdup)]

/-- C7 witness: a duplicate `en` response overwrites the stored payload. -/
theorem c7_witness :
    dictLookup "en" (dictInsert "en" "new" talkOldEn.data) = some "new" :=
  (c7_amended_duplicate_overwrites cfgEnFr none "A" "A" "en" 5 ⟨∅, talkOldEn⟩
    "new" (by decide) (by decide) (by decide) (by decide)).2.1

/-- C8 counterexample: with 2 retries remaining, a decode failure raises an
uncaught exception out of the callback (`Except.error`): no retry unit is
consumed and no fetch reissued — while a facet mismatch in the same state is
handled with a reissue at decremented retries.  The two are therefore NOT
the same error class, contrary to the claim. -/
theorem c8_counterexample :
    parse_talk cfgEnFr none "A" "A" "en" 2 ⟨∅, emptyTalk⟩ RawResponse.noData
      = Except.error ()
    ∧ parse_talk cfgEnFr none "A" "A" "en" 2 ⟨∅, emptyTalk⟩
        (RawResponse.data "xx" (some "p"))
      = Except.ok ⟨∅, emptyTalk, none, some 1⟩ := ⟨rfl, rfl⟩

/-- C8 (amended): a decode failure propagates as an uncaught exception from
`parse_talk` — the fetch is not reissued and no retry unit is consumed (the
(item, facet) chain simply terminates); only a language mismatch consumes a
retry unit and reissues the fetch. -/
theorem c8_amended_decode_failure_raises (cfg : Config)
    (gender : Option String) (talkId talkName f : String) (retries : Nat)
    (st : PView) (hr : retries ≠ 0) (hb : st.finished.card < cfg.maxTalks) :
    parse_talk cfg gender talkId talkName f retries st RawResponse.noData
      = Except.error ()
    ∧ ∀ (l : String) (tr : Option String), l ∉ cfg.languages →
        parse_talk cfg gender talkId talkName f retries st
          (RawResponse.data l tr)
          = Except.ok ⟨st.finished, st.talk, none, some (retries - 1)⟩ :=
  ⟨parse_talk_noData cfg gender talkId talkName f retries st hr hb,
   fun l tr hl =>
     parse_talk_mismatch cfg gender talkId talkName f retries st l tr hr hb hl⟩

/-- C8 witness: a concrete decode failure raises. -/
theorem c8_witness :
    parse_talk cfgA none "A" "A" "en" 7 ⟨∅, emptyTalk⟩ RawResponse.noData
      = Except.error () :=
  (c8_amended_decode_failure_raises cfgA none "A" "A" "en" 7 ⟨∅, emptyTalk⟩
    (by decide) (by decide)).1

/-- C10 counterexample: a response for expected facet `en` decoding to the
other required facet `fr` arrives on the request whose retry counter is 0.
The claim says the `fr` payload is recorded and the `en` fetch reissued with
a decremented counter; in fact the response is dropped whole at line 111 —
nothing is recorded and nothing reissued. -/
theorem c10_counterexample :
    parse_talk cfgEnFr none "A" "A" "en" 0 ⟨∅, emptyTalk⟩
      (RawResponse.data "fr" (some "p"))
      = Except.ok ⟨∅, emptyTalk, none, none⟩ := rfl

/-- C10 (amended): provided the response is processed with a nonzero retry
counter and before the budget is reached, a response for expected facet `f`
decoding to a different required facet `g` records the payload under `g`
(overwriting any payload already recorded for `g`); then, unless that
recording completed the accumulator of a not-yet-finished talk (in which
case the talk finalizes), the fetch for `f` is reissued with `f`'s retry
counter decremented — except when `f` is itself already recorded, in which
case no reissue happens. -/
theorem c10_amended_cross_record (cfg : Config) (gender : Option String)
    (talkId talkName f g : String) (retries : Nat) (st : PView) (t : String)
    (hr : retries ≠ 0) (hb : st.finished.card < cfg.maxTalks)
    (hg : g ∈ cfg.languages) (hne : g ≠ f) :
    parse_talk cfg gender talkId talkName f retries st
        (RawResponse.data g (some t))
      = (if (insert g st.talk.langs).card = cfg.languages.card ∧
            talkId ∉ st.finished then
          Except.ok ⟨insert talkId st.finished,
            ⟨dictInsert g t st.talk.data, insert g st.talk.langs⟩,
            some ⟨talkId, talkName, gender, dictInsert g t st.talk.data⟩, none⟩
        else if f ∈ st.talk.langs then
          Except.ok ⟨st.finished,
            ⟨dictInsert g t st.talk.data, insert g st.talk.langs⟩, none, none⟩
        else
          Except.ok ⟨st.finished,
            ⟨dictInsert g t st.talk.data, insert g st.talk.langs⟩, none,
            some (retries - 1)⟩)
    ∧ dictLookup g (dictInsert g t st.talk.data) = some t := by
  refine ⟨?_, dictLookup_dictInsert_self g t st.talk.data⟩
  rw [parse_talk_record cfg gender talkId talkName f retries st g t hr hb hg]
  have hmem : f ∈ insert g st.talk.langs ↔ f ∈ st.talk.langs := by
    rw [Finset.mem_insert]
    exact or_iff_right (fun h => hne h.symm)
  by_cases hc : (insert g st.talk.langs).card = cfg.languages.card ∧
      talkId ∉ st.finished
  · rw [if_pos hc, if_pos hc]
  · rw [if_neg hc, if_neg hc]
    by_cases hfm : f ∈ st.talk.langs
    · rw [if_pos hfm, if_neg (not_not_intro (hmem.mpr hfm))]
    · rw [if_neg hfm, if_pos (fun hmm => hfm (hmem.mp hmm))]

/-- C10 witness: a `fr` response to the `en` fetch records the `fr`
payload. -/
theorem c10_witness :
    dictLookup "fr" (dictInsert "fr" "p" emptyTalk.data) = some "p" :=
  (c10_amended_cross_record cfgEnFr none "A" "A" "en" "fr" 3 ⟨∅, emptyTalk⟩
    "p" (by decide) (by decide) (by decide) (by decide)).2

/-- C9: a second run against the same catalog, seeded with a ledger of `N`
completed identifiers: no request (gate or transcript fetch) is ever issued
for a ledger identifier, and the final ledger — the replayed entries
followed by the newly emitted records — has no duplicate identifiers and
exactly `N + M` entries, where `M` is the number of newly completed talks. -/
theorem c9_resumable_no_refetch_no_dup (cfg : Config) (init : InitData)
    (script : List Event) (hnd : init.ledger.Nodup) :
    (∀ r ∈ (run cfg init script).reqLog, Req.talkOf r ∉ init.ledger) ∧
    (init.ledger ++ (run cfg init script).emitted.map Item.talkId).Nodup ∧
    (init.ledger ++ (run cfg init script).emitted.map Item.talkId).length
      = init.ledger.length + (run cfg init script).emitted.length := by
  have hinv := run_inv cfg init script
  refine ⟨?_, ?_, ?_⟩
  · intro r hr hmem
    exact hinv.log_nl r hr (List.mem_toFinset.mpr hmem)
  · rw [List.nodup_append]
    refine ⟨hnd, hinv.em_nodup, ?_⟩
    intro i hi hmem
    exact hinv.em_nl i hmem (List.mem_toFinset.mpr hi)
  · rw [List.length_append, List.length_map]

/-- C9 witness: seeded with ledger `["Z"]` and completing `A`, the combined
ledger has no duplicates. -/
theorem c9_witness :
    (initZ.ledger ++ (run cfgA2 initZ scriptA).emitted.map Item.talkId).Nodup :=
  (c9_resumable_no_refetch_no_dup cfgA2 initZ scriptA (by decide)).2.1
